import Mathlib

/-!
Verification development for the credit ledger and referral protocol of the
image_card_bot Telegram bot.

The definitions below are a shallow embedding of the Python source:

* `bot/database/models.py` — the `User` row;
* `bot/database/crud.py` — `get_or_create_user`, `has_credits`, `use_credits`,
  `add_credits`, `add_referral_earnings`;
* `bot/handlers/payment.py` — `success_payment_handler` (credits branch);
* `bot/handlers/card_generation.py` / `bot/handlers/photo_processing.py` —
  the credit-gated paid-action flow (`generate_card_with_gpt`,
  `process_photo_with_api`) and the photo-collection state machine
  (`process_photo`).

The relational store is modelled as a partial map from `telegram_id` to the
user row; Python `int` is modelled as `Int`.  Python truthiness on integer
fields (`if referrer_id`, `if db_user.referred_by_id`) makes the value `0`
behave like "absent", which the embedding reproduces literally.
-/

namespace ImageCardBot

/-- The fields of an inbound Telegram user (`aiogram.types.User`) that
`crud.get_or_create_user` reads. -/
structure TgUser where
  id : Int
  username : Option String
  first_name : Option String
  last_name : Option String
deriving DecidableEq, Repr

/-- The `users` row of `bot/database/models.py`.

`telegram_id`, `username`, `first_name`, `last_name`, `credits_remaining`
(default 125) and `credits_used` (default 0) are declared in `models.py`.

Modelled from the spec: the referral columns `referred_by_id` and
`referral_earnings` are missing from the `models.py` present here, although
`crud.py`, `payment.py` and `commands.py` all read and write them; the spec
(§3) lists `referred_by` (optional back-reference, set only at creation) and
`referral_earnings` (non-negative lifetime sum of referrer bonuses) as User
fields, so they are included with those semantics. -/
structure User where
  telegram_id : Int
  username : Option String
  first_name : Option String
  last_name : Option String
  credits_remaining : Int
  credits_used : Int
  referred_by_id : Option Int
  referral_earnings : Int
deriving DecidableEq, Repr

/-- The `users` table, keyed by `telegram_id` (unique, indexed). -/
abbrev DB := Int → Option User

/-- An empty store. -/
def DB.empty : DB := fun _ => none

/-- Overwrite (or insert) the row stored under `id`. -/
def DB.update (db : DB) (id : Int) (u : User) : DB :=
  fun i => if i = id then some u else db i

/-- Embeds `crud.get_user`: retrieve a user by Telegram ID. -/
def get_user (db : DB) (telegram_id : Int) : Option User :=
  db telegram_id

/-- The new-user branch of `crud.get_or_create_user`: starting from
`initial_credits = 125`, when `referrer_id` is truthy (non-`None` and
non-zero in Python), differs from the new user's own id, and names an
existing user, upgrade to `225` and keep the referrer id; otherwise fall
back to an unreferred registration. -/
def referral_check (db : DB) (tg_id : Int) (referrer_id : Option Int) :
    Int × Option Int :=
  match referrer_id with
  | some r =>
      if r ≠ 0 ∧ r ≠ tg_id then
        match get_user db r with
        | some _ => (225, some r)
        | none => (125, none)
      else
        (125, none)
  | none => (125, none)

/-- Embeds `crud.get_or_create_user`: fetch the row for `tg.id`, refreshing the
display fields if they changed; if no row exists, create one with the
starting credits and referrer link computed by `referral_check`.  Returns
the row together with the updated store. -/
def get_or_create_user (db : DB) (tg : TgUser) (referrer_id : Option Int) :
    User × DB :=
  match get_user db tg.id with
  | some db_user =>
      if db_user.username ≠ tg.username ∨ db_user.first_name ≠ tg.first_name ∨
          db_user.last_name ≠ tg.last_name then
        let u := { db_user with
          username := tg.username
          first_name := tg.first_name
          last_name := tg.last_name }
        (u, db.update tg.id u)
      else
        (db_user, db)
  | none =>
      let checked : Int × Option Int := referral_check db tg.id referrer_id
      let new_user : User :=
        { telegram_id := tg.id
          username := tg.username
          first_name := tg.first_name
          last_name := tg.last_name
          credits_remaining := checked.1
          credits_used := 0
          referred_by_id := checked.2
          referral_earnings := 0 }
      (new_user, db.update tg.id new_user)

/-- Embeds `crud.has_credits`: `False` when the user is unknown, otherwise the
comparison `credits_remaining >= amount_needed`. -/
def has_credits (db : DB) (telegram_id amount_needed : Int) : Bool :=
  match get_user db telegram_id with
  | none => false
  | some user => decide (amount_needed ≤ user.credits_remaining)

/-- Embeds `crud.use_credits`: when the user exists and
`credits_remaining >= amount_to_use`, subtract from `credits_remaining`,
add to `credits_used` and commit, returning `True`; otherwise return
`False` without mutating anything. -/
def use_credits (db : DB) (telegram_id amount_to_use : Int) : Bool × DB :=
  match get_user db telegram_id with
  | some user =>
      if amount_to_use ≤ user.credits_remaining then
        (true, db.update telegram_id
          { user with
            credits_remaining := user.credits_remaining - amount_to_use
            credits_used := user.credits_used + amount_to_use })
      else
        (false, db)
  | none => (false, db)

/-- Embeds `crud.add_credits`: when the user exists and `amount_to_add > 0`, add to
`credits_remaining` and return `True`; otherwise return `False` without
mutating anything. -/
def add_credits (db : DB) (telegram_id amount_to_add : Int) : Bool × DB :=
  match get_user db telegram_id with
  | some user =>
      if 0 < amount_to_add then
        (true, db.update telegram_id
          { user with credits_remaining := user.credits_remaining + amount_to_add })
      else
        (false, db)
  | none => (false, db)

/-- Embeds `crud.add_referral_earnings`: when the user exists and `amount > 0`, add
to `referral_earnings` and return `True`; otherwise return `False` without
mutating anything. -/
def add_referral_earnings (db : DB) (user_id amount : Int) : Bool × DB :=
  match get_user db user_id with
  | some user =>
      if 0 < amount then
        (true, db.update user_id
          { user with referral_earnings := user.referral_earnings + amount })
      else
        (false, db)
  | none => (false, db)

/-- One Ledger operation, as enumerated by the spec (§4.1). -/
inductive LedgerOp where
  | getOrCreate (tg : TgUser) (referrer_id : Option Int)
  | hasCredits (telegram_id amount : Int)
  | useCredits (telegram_id amount : Int)
  | addCredits (telegram_id amount : Int)
  | addReferralEarnings (telegram_id amount : Int)
deriving DecidableEq, Repr

/-- Apply one Ledger operation to the store (`has_credits` is a pure read). -/
def applyOp (db : DB) : LedgerOp → DB
  | .getOrCreate tg referrer_id => (get_or_create_user db tg referrer_id).2
  | .hasCredits _ _ => db
  | .useCredits telegram_id amount => (use_credits db telegram_id amount).2
  | .addCredits telegram_id amount => (add_credits db telegram_id amount).2
  | .addReferralEarnings telegram_id amount =>
      (add_referral_earnings db telegram_id amount).2

/-- Apply a sequence of Ledger operations, left to right. -/
def applyOps (db : DB) (ops : List LedgerOp) : DB :=
  ops.foldl applyOp db

/-- The spendable balance stored under `id` (0 when no row exists). -/
def balanceOf (db : DB) (id : Int) : Int :=
  match db id with
  | some u => u.credits_remaining
  | none => 0

/-- The lifetime-debits counter stored under `id` (0 when no row exists). -/
def usedOf (db : DB) (id : Int) : Int :=
  match db id with
  | some u => u.credits_used
  | none => 0

/-- The lifetime referral earnings stored under `id` (0 when no row exists). -/
def earningsOf (db : DB) (id : Int) : Int :=
  match db id with
  | some u => u.referral_earnings
  | none => 0

/-- Every stored row has a non-negative spendable balance. -/
def NonnegBalances (db : DB) : Prop :=
  ∀ id u, db id = some u → 0 ≤ u.credits_remaining

/-- The debit amount of an operation (0 for every operation other than
`useCredits`, whose amount is the only one that can drive `credits_used`). -/
def debitAmount : LedgerOp → Int
  | .useCredits _ amount => amount
  | _ => 0

/-- The referral bonus computed by `payment.success_payment_handler`:
Python `int(amount * 0.20)`.  The float product `amount * 0.20` truncated
toward zero agrees with `Int.tdiv amount 5` for every amount small enough
for the double product not to straddle an integer (far beyond the Stars
purchase amounts the handler receives); for `0 ≤ amount` this is
`floor(amount * 0.20)`. -/
def referral_bonus (amount : Int) : Int :=
  Int.tdiv amount 5

/-- The ledger effect of `payment.success_payment_handler` on a
`buy:credits:<amount>` payload: credit the purchaser with `amount`; then, if
the purchaser row loaded by the middleware carries a truthy
`referred_by_id` naming an existing referrer, compute
`bonus = int(amount * 0.20)` and, when `bonus > 0`, credit the referrer and
add the bonus to the referrer's earnings counter.  (Messages and the
referrer notification carry no ledger effect and are omitted.) -/
def success_payment_credits (db : DB) (purchaser_id amount : Int) : DB :=
  match get_user db purchaser_id with
  | none => db
  | some db_user =>
      let db1 := (add_credits db purchaser_id amount).2
      match db_user.referred_by_id with
      | none => db1
      | some rid =>
          if rid ≠ 0 then
            match get_user db1 rid with
            | none => db1
            | some referrer =>
                let bonus := referral_bonus amount
                if 0 < bonus then
                  let db2 := (add_credits db1 referrer.telegram_id bonus).2
                  (add_referral_earnings db2 referrer.telegram_id bonus).2
                else
                  db1
          else
            db1

/-- Outcome of the external GPT-service call as seen by the gated handlers:
an HTTP 200 success, an application-level error (non-success response), or a
network error / timeout (`aiohttp.ClientError`, `asyncio.TimeoutError`). -/
inductive ExternalResult where
  | delivered
  | external_error (msg : String)
  | unreachable
deriving DecidableEq, Repr

/-- The tri-state outcome of a gated paid action, plus the insufficient-funds
report (which carries `needed = cost` and `have = balance`, as in the
"нужно X, у вас Y" message). -/
inductive GateOutcome where
  | insufficient (needed : Int) (available : Int)
  | delivered
  | external_error (msg : String)
  | unreachable
deriving DecidableEq, Repr

/-- Result of running a gated paid action: the reported outcome, the store
afterwards, and whether the external collaborator was invoked at all. -/
structure GateResult where
  outcome : GateOutcome
  db : DB
  external_invoked : Bool

/-- The credit gate shared by `generate_card_with_gpt` and
`process_photo_with_api` (`db_user` is the acting user's row, injected by
`DbSessionMiddleware`):

1. if `db_user.credits_remaining < cost`, report insufficient funds and stop
   (the external service is never contacted);
2. otherwise debit `cost` via `use_credits` *before* the HTTP POST, then
   invoke the external collaborator and report its outcome; no branch
   refunds the debit. -/
def run_paid_gate (db : DB) (db_user : User) (cost : Int) (ext : ExternalResult) :
    GateResult :=
  if db_user.credits_remaining < cost then
    { outcome := .insufficient cost db_user.credits_remaining
      db := db
      external_invoked := false }
  else
    let db1 := (use_credits db db_user.telegram_id cost).2
    { outcome :=
        match ext with
        | .delivered => .delivered
        | .external_error m => .external_error m
        | .unreachable => .unreachable
      db := db1
      external_invoked := true }

/-- Constant `PHOTO_GENERATION_COST` from `photo_processing.py`. -/
def PHOTO_GENERATION_COST : Int := 40

/-- Constant `CARD_GENERATION_COST` from `card_generation.py`. -/
def CARD_GENERATION_COST : Int := 1

/-- The two FSM states of the photo-collection flow that `process_photo`
interacts with (`PhotoProcessingStates`). -/
inductive PPState where
  | waiting_for_photo
  | waiting_for_prompt
deriving DecidableEq, Repr

/-- The conversation state of the photo-processing flow: the FSM state and
the accumulated `photo_file_ids` list. -/
structure PhotoFlow where
  st : PPState
  photo_file_ids : List String
deriving DecidableEq, Repr

/-- Embeds `photo_processing.process_photo`, including the router's `StateFilter`
(the handler only fires in `waiting_for_photo`): when 3 photos are already
stored, send a notice and change nothing; otherwise append the new
`file_id` and, exactly when the list reaches 3, advance to
`waiting_for_prompt`.  The boolean records whether the photo was stored. -/
def process_photo (s : PhotoFlow) (file_id : String) : PhotoFlow × Bool :=
  if s.st = PPState.waiting_for_photo then
    if 3 ≤ s.photo_file_ids.length then
      (s, false)
    else
      if (s.photo_file_ids ++ [file_id]).length = 3 then
        ({ st := .waiting_for_prompt
           photo_file_ids := s.photo_file_ids ++ [file_id] }, true)
      else
        ({ s with photo_file_ids := s.photo_file_ids ++ [file_id] }, true)
  else
    (s, false)

/-- The state set by `callback_start_photo_processing`: empty photo list,
waiting for the first photo. -/
def initialPhotoFlow : PhotoFlow :=
  { st := .waiting_for_photo, photo_file_ids := [] }

/-! ### Basic store lemmas -/

theorem DB.update_self (db : DB) (k : Int) (u : User) :
    db.update k u k = some u := by
  simp [DB.update]

theorem DB.update_ne (db : DB) (k : Int) (u : User) (i : Int) (h : i ≠ k) :
    db.update k u i = db i := by
  simp [DB.update, h]

theorem balanceOf_update (db : DB) (k : Int) (u : User) (i : Int) :
    balanceOf (db.update k u) i =
      if i = k then u.credits_remaining else balanceOf db i := by
  by_cases h : i = k <;> simp [balanceOf, DB.update, h]

theorem usedOf_update (db : DB) (k : Int) (u : User) (i : Int) :
    usedOf (db.update k u) i =
      if i = k then u.credits_used else usedOf db i := by
  by_cases h : i = k <;> simp [usedOf, DB.update, h]

theorem earningsOf_update (db : DB) (k : Int) (u : User) (i : Int) :
    earningsOf (db.update k u) i =
      if i = k then u.referral_earnings else earningsOf db i := by
  by_cases h : i = k <;> simp [earningsOf, DB.update, h]

theorem nonneg_update (db : DB) (k : Int) (u : User)
    (h : NonnegBalances db) (hu : 0 ≤ u.credits_remaining) :
    NonnegBalances (db.update k u) := by
  intro i v hv
  by_cases hi : i = k
  · rw [hi, DB.update_self] at hv
    cases hv
    exact hu
  · rw [DB.update_ne db k u i hi] at hv
    exact h i v hv

theorem balanceOf_eq_of_get (db : DB) (i : Int) (u : User)
    (h : get_user db i = some u) : balanceOf db i = u.credits_remaining := by
  simp only [get_user] at h
  simp [balanceOf, h]

theorem usedOf_eq_of_get (db : DB) (i : Int) (u : User)
    (h : get_user db i = some u) : usedOf db i = u.credits_used := by
  simp only [get_user] at h
  simp [usedOf, h]

theorem earningsOf_eq_of_get (db : DB) (i : Int) (u : User)
    (h : get_user db i = some u) : earningsOf db i = u.referral_earnings := by
  simp only [get_user] at h
  simp [earningsOf, h]

theorem usedOf_eq_zero_of_none (db : DB) (i : Int)
    (h : get_user db i = none) : usedOf db i = 0 := by
  simp only [get_user] at h
  simp [usedOf, h]

theorem referral_check_fst_nonneg (db : DB) (tg_id : Int)
    (referrer_id : Option Int) : 0 ≤ (referral_check db tg_id referrer_id).1 := by
  rcases referrer_id with _ | r
  · norm_num [referral_check]
  · rcases hgr : get_user db r with _ | u <;>
      simp only [referral_check, hgr] <;> split <;> norm_num

/-! ### Per-operation preservation lemmas -/

theorem applyOp_nonneg (db : DB) (op : LedgerOp) (h : NonnegBalances db) :
    NonnegBalances (applyOp db op) := by
  cases op with
  | getOrCreate tg referrer_id =>
      simp only [applyOp, get_or_create_user]
      cases hdb : get_user db tg.id with
      | some db_user =>
          simp only
          split
          · exact nonneg_update _ _ _ h (h tg.id db_user hdb)
          · exact h
      | none =>
          simp only
          exact nonneg_update _ _ _ h (referral_check_fst_nonneg db tg.id referrer_id)
  | hasCredits telegram_id amount => exact h
  | useCredits telegram_id amount =>
      simp only [applyOp, use_credits]
      cases hdb : get_user db telegram_id with
      | some user =>
          simp only
          split
          case isTrue hle =>
            exact nonneg_update _ _ _ h (by simpa using hle)
          case isFalse => exact h
      | none => exact h
  | addCredits telegram_id amount =>
      simp only [applyOp, add_credits]
      cases hdb : get_user db telegram_id with
      | some user =>
          simp only
          split
          case isTrue hpos =>
            exact nonneg_update _ _ _ h
              (add_nonneg (h telegram_id user hdb) (le_of_lt hpos))
          case isFalse => exact h
      | none => exact h
  | addReferralEarnings telegram_id amount =>
      simp only [applyOp, add_referral_earnings]
      cases hdb : get_user db telegram_id with
      | some user =>
          simp only
          split
          · exact nonneg_update _ _ _ h (h telegram_id user hdb)
          · exact h
      | none => exact h

theorem usedOf_applyOp_mono (db : DB) (op : LedgerOp) (i : Int)
    (hop : 0 ≤ debitAmount op) : usedOf db i ≤ usedOf (applyOp db op) i := by
  cases op with
  | getOrCreate tg referrer_id =>
      simp only [applyOp, get_or_create_user]
      cases hdb : get_user db tg.id with
      | some db_user =>
          simp only
          split
          · rw [usedOf_update]
            by_cases hi : i = tg.id
            · rw [if_pos hi, hi, usedOf_eq_of_get db tg.id db_user hdb]
            · rw [if_neg hi]
          · exact le_refl _
      | none =>
          simp only
          rw [usedOf_update]
          by_cases hi : i = tg.id
          · rw [if_pos hi, hi, usedOf_eq_zero_of_none db tg.id hdb]
          · rw [if_neg hi]
  | hasCredits telegram_id amount => exact le_refl _
  | useCredits telegram_id amount =>
      simp only [debitAmount] at hop
      simp only [applyOp, use_credits]
      cases hdb : get_user db telegram_id with
      | some user =>
          simp only
          split
          · rw [usedOf_update]
            by_cases hi : i = telegram_id
            · rw [if_pos hi, hi, usedOf_eq_of_get db telegram_id user hdb]
              exact le_add_of_nonneg_right hop
            · rw [if_neg hi]
          · exact le_refl _
      | none => exact le_refl _
  | addCredits telegram_id amount =>
      simp only [applyOp, add_credits]
      cases hdb : get_user db telegram_id with
      | some user =>
          simp only
          split
          · rw [usedOf_update]
            by_cases hi : i = telegram_id
            · rw [if_pos hi, hi, usedOf_eq_of_get db telegram_id user hdb]
            · rw [if_neg hi]
          · exact le_refl _
      | none => exact le_refl _
  | addReferralEarnings telegram_id amount =>
      simp only [applyOp, add_referral_earnings]
      cases hdb : get_user db telegram_id with
      | some user =>
          simp only
          split
          · rw [usedOf_update]
            by_cases hi : i = telegram_id
            · rw [if_pos hi, hi, usedOf_eq_of_get db telegram_id user hdb]
            · rw [if_neg hi]
          · exact le_refl _
      | none => exact le_refl _

/-! ### Concrete stores used in witnesses and counterexamples -/

def w1_tg : TgUser :=
  { id := 1, username := some "alice", first_name := none, last_name := none }

def w1_ops : List LedgerOp :=
  [LedgerOp.getOrCreate w1_tg none,
   LedgerOp.useCredits 1 100,
   LedgerOp.addCredits 1 50,
   LedgerOp.hasCredits 1 40,
   LedgerOp.useCredits 1 75,
   LedgerOp.addReferralEarnings 1 10]

def cx7_user : User :=
  { telegram_id := 7, username := none, first_name := none, last_name := none
    credits_remaining := 0, credits_used := 0, referred_by_id := none
    referral_earnings := 0 }

def cx7_db : DB := DB.empty.update 7 cx7_user

def w7_ops : List LedgerOp :=
  [LedgerOp.useCredits 7 0, LedgerOp.addCredits 7 (-3), LedgerOp.useCredits 7 2]

/-! ### Claim theorems -/

/-- C1: for every store in which every user's `credits_remaining` is
non-negative, applying any sequence of Ledger operations
(`get_or_create_user`, `has_credits`, `use_credits`, `add_credits`,
`add_referral_earnings`) with any integer amounts leaves every user's
`credits_remaining` non-negative. -/
theorem C1_credits_remaining_nonneg (db : DB) (ops : List LedgerOp)
    (h : NonnegBalances db) : NonnegBalances (applyOps db ops) := by
  induction ops generalizing db with
  | nil => exact h
  | cons op rest ih => exact ih (applyOp db op) (applyOp_nonneg db op h)

/-- C1 witness: the invariant holds concretely after registering user 1 and
running debits and credits against the empty store. -/
theorem C1_credits_remaining_nonneg_witness :
    NonnegBalances (applyOps DB.empty w1_ops) :=
  C1_credits_remaining_nonneg DB.empty w1_ops
    (fun _ _ h => Option.noConfusion h)

/-- C7 counterexample: with an arbitrary integer amount, `use_credits` with
amount `-1` passes the sufficiency guard (`0 >= -1`) and adds `-1` to
`credits_used`, so the lifetime counter strictly decreases — the claim is
false for unrestricted integer amounts. -/
theorem C7_counterexample :
    usedOf (applyOps cx7_db [LedgerOp.useCredits 7 (-1)]) 7 < usedOf cx7_db 7 := by
  decide

/-- C7 (amended): for every sequence of Ledger operations in which every
`use_credits` amount is non-negative, each user's `credits_used` counter
never decreases. -/
theorem C7_credits_used_monotone (db : DB) (ops : List LedgerOp) (i : Int)
    (h : ∀ op ∈ ops, 0 ≤ debitAmount op) :
    usedOf db i ≤ usedOf (applyOps db ops) i := by
  induction ops generalizing db with
  | nil => exact le_refl _
  | cons op rest ih =>
      exact le_trans
        (usedOf_applyOp_mono db op i (h op (List.mem_cons_self op rest)))
        (ih (applyOp db op) (fun o ho => h o (List.mem_cons_of_mem op ho)))

/-- C7 witness: monotonicity holds concretely on a store with one user and a
run of zero-amount and credit operations. -/
theorem C7_credits_used_monotone_witness :
    usedOf cx7_db 7 ≤ usedOf (applyOps cx7_db w7_ops) 7 :=
  C7_credits_used_monotone cx7_db w7_ops 7 (by decide)

/-- A user row with balance 5 used to witness the debit claims. -/
def w5_user : User :=
  { telegram_id := 1, username := some "alice", first_name := none
    last_name := none, credits_remaining := 5, credits_used := 2
    referred_by_id := none, referral_earnings := 0 }

def w5_db : DB := DB.empty.update 1 w5_user

/-- C5: for every positive amount, `use_credits` returns failure and leaves
the store untouched when the user is unknown or the balance is below the
amount, and otherwise returns success with the balance decreased and the
lifetime counter increased by exactly that amount, as a single row update. -/
theorem C5_use_credits_spec (db : DB) (i amount : Int) (_hpos : 0 < amount) :
    (get_user db i = none → use_credits db i amount = (false, db)) ∧
    (∀ u, get_user db i = some u → u.credits_remaining < amount →
      use_credits db i amount = (false, db)) ∧
    (∀ u, get_user db i = some u → amount ≤ u.credits_remaining →
      use_credits db i amount =
        (true, db.update i
          { u with
            credits_remaining := u.credits_remaining - amount
            credits_used := u.credits_used + amount })) := by
  refine ⟨fun hn => ?_, fun u hu hlt => ?_, fun u hu hle => ?_⟩
  · simp [use_credits, hn]
  · simp [use_credits, hu, not_le.mpr hlt]
  · simp [use_credits, hu, hle]

/-- C5 witness: debiting 3 from a balance of 5 succeeds and rewrites the row
to balance 2 and lifetime counter 5. -/
theorem C5_use_credits_spec_witness :
    use_credits w5_db 1 3 =
      (true, w5_db.update 1
        { w5_user with
          credits_remaining := w5_user.credits_remaining - 3
          credits_used := w5_user.credits_used + 3 }) :=
  (C5_use_credits_spec w5_db 1 3 (by decide)).2.2 w5_user (by decide) (by decide)

/-- C9: `has_credits` returns `false` (never an error) for an unknown user
or a balance below the amount; and after a successful debit of an exact
balance, `has_credits` with the same positive amount returns `false`. -/
theorem C9_has_credits_spec (db : DB) (i amount : Int) :
    (get_user db i = none → has_credits db i amount = false) ∧
    (∀ u, get_user db i = some u → u.credits_remaining < amount →
      has_credits db i amount = false) ∧
    (∀ u, get_user db i = some u → 0 < amount → u.credits_remaining = amount →
      (use_credits db i amount).1 = true ∧
      has_credits (use_credits db i amount).2 i amount = false) := by
  refine ⟨fun hn => ?_, fun u hu hlt => ?_, fun u hu hpos heq => ?_⟩
  · simp [has_credits, hn]
  · simp only [has_credits, hu]
    exact decide_eq_false (not_le.mpr hlt)
  · have hle : amount ≤ u.credits_remaining := le_of_eq heq.symm
    have huse : use_credits db i amount =
        (true, db.update i
          { u with
            credits_remaining := u.credits_remaining - amount
            credits_used := u.credits_used + amount }) := by
      simp [use_credits, hu, hle]
    rw [huse]
    refine ⟨rfl, ?_⟩
    have hget : get_user
        (db.update i
          { u with
            credits_remaining := u.credits_remaining - amount
            credits_used := u.credits_used + amount }) i =
        some { u with
          credits_remaining := u.credits_remaining - amount
          credits_used := u.credits_used + amount } := by
      simp [get_user, DB.update]
    simp only [has_credits, hget]
    exact decide_eq_false (by omega)

/-- C9 witness: the user with balance exactly 5 passes a debit of 5, after
which `has_credits` for 5 reports `false`. -/
theorem C9_has_credits_spec_witness :
    (use_credits w5_db 1 5).1 = true ∧
    has_credits (use_credits w5_db 1 5).2 1 5 = false :=
  (C9_has_credits_spec w5_db 1 5).2.2 w5_user (by decide) (by decide) (by decide)

/-- After `get_or_create_user`, the row stored under `tg.id` is exactly the
returned row (in both the refresh and the creation branch). -/
theorem goc_stored (db : DB) (tg : TgUser) (rid : Option Int) :
    get_user (get_or_create_user db tg rid).2 tg.id =
      some (get_or_create_user db tg rid).1 := by
  unfold get_or_create_user
  cases hdb : get_user db tg.id with
  | some u =>
      simp only
      split
      · simp [get_user, DB.update]
      · simpa [get_user] using hdb
  | none =>
      simp [get_user, DB.update]

/-- When a row already exists, `get_or_create_user` preserves every
non-display field of that row in its result. -/
theorem goc_credits_of_existing (db : DB) (tg : TgUser) (rid : Option Int)
    (u : User) (h : get_user db tg.id = some u) :
    (get_or_create_user db tg rid).1.credits_remaining = u.credits_remaining ∧
    (get_or_create_user db tg rid).1.credits_used = u.credits_used ∧
    (get_or_create_user db tg rid).1.referred_by_id = u.referred_by_id ∧
    (get_or_create_user db tg rid).1.referral_earnings = u.referral_earnings ∧
    (get_or_create_user db tg rid).1.telegram_id = u.telegram_id := by
  simp only [get_or_create_user, h]
  split <;> simp

/-- C8: `get_or_create_user` with the same identity and no referrer yields
the same balance on two successive calls, and on an existing user returns
that user's balance unchanged, refreshing at most the display fields. -/
theorem C8_get_or_create_idempotent (db : DB) (tg : TgUser) :
    ((get_or_create_user db tg none).1.credits_remaining =
      (get_or_create_user (get_or_create_user db tg none).2 tg
        none).1.credits_remaining) ∧
    (∀ u, get_user db tg.id = some u →
      (get_or_create_user db tg none).1.credits_remaining =
        u.credits_remaining ∧
      ∃ u2, get_user (get_or_create_user db tg none).2 tg.id = some u2 ∧
        u2.telegram_id = u.telegram_id ∧
        u2.credits_remaining = u.credits_remaining ∧
        u2.credits_used = u.credits_used ∧
        u2.referred_by_id = u.referred_by_id ∧
        u2.referral_earnings = u.referral_earnings) := by
  constructor
  · exact (goc_credits_of_existing (get_or_create_user db tg none).2 tg none
      (get_or_create_user db tg none).1 (goc_stored db tg none)).1.symm
  · intro u hu
    obtain ⟨hc, hcu, hrb, hre, hti⟩ := goc_credits_of_existing db tg none u hu
    exact ⟨hc, (get_or_create_user db tg none).1, goc_stored db tg none,
      hti, hc, hcu, hrb, hre⟩

/-- C8 witness: a second `get_or_create_user` call for the existing user 1
reports the stored balance 5 and leaves the credit fields untouched. -/
theorem C8_get_or_create_idempotent_witness :
    (get_or_create_user w5_db w1_tg none).1.credits_remaining =
      w5_user.credits_remaining ∧
    ∃ u2, get_user (get_or_create_user w5_db w1_tg none).2 w1_tg.id = some u2 ∧
      u2.telegram_id = w5_user.telegram_id ∧
      u2.credits_remaining = w5_user.credits_remaining ∧
      u2.credits_used = w5_user.credits_used ∧
      u2.referred_by_id = w5_user.referred_by_id ∧
      u2.referral_earnings = w5_user.referral_earnings :=
  (C8_get_or_create_idempotent w5_db w1_tg).2 w5_user (by decide)

/-- C4: creating a user whose proposed referrer exists, is distinct from the
new identity and is a genuine (non-zero) Telegram id yields starting balance
225 with `referred_by_id` set; a self-referrer or an unknown referrer is
silently ignored, yielding the default balance 125 and no referrer link. -/
theorem C4_new_user_referral (db : DB) (tg : TgUser)
    (hnew : get_user db tg.id = none) :
    (∀ r ur, get_user db r = some ur → r ≠ tg.id → r ≠ 0 →
      (get_or_create_user db tg (some r)).1.credits_remaining = 225 ∧
      (get_or_create_user db tg (some r)).1.referred_by_id = some r) ∧
    ((get_or_create_user db tg (some tg.id)).1.credits_remaining = 125 ∧
      (get_or_create_user db tg (some tg.id)).1.referred_by_id = none) ∧
    (∀ r, get_user db r = none →
      (get_or_create_user db tg (some r)).1.credits_remaining = 125 ∧
      (get_or_create_user db tg (some r)).1.referred_by_id = none) := by
  have hbase : ∀ rid, (get_or_create_user db tg rid).1.credits_remaining =
      (referral_check db tg.id rid).1 ∧
      (get_or_create_user db tg rid).1.referred_by_id =
        (referral_check db tg.id rid).2 := by
    intro rid
    simp [get_or_create_user, hnew]
  refine ⟨fun r ur hur hrne hr0 => ?_, ?_, fun r hr => ?_⟩
  · have hc : referral_check db tg.id (some r) = (225, some r) := by
      simp [referral_check, hur, hr0, hrne]
    exact ⟨by rw [(hbase (some r)).1, hc], by rw [(hbase (some r)).2, hc]⟩
  · have hc : referral_check db tg.id (some tg.id) = (125, none) := by
      simp [referral_check]
    exact ⟨by rw [(hbase (some tg.id)).1, hc],
      by rw [(hbase (some tg.id)).2, hc]⟩
  · have hc : referral_check db tg.id (some r) = (125, none) := by
      simp [referral_check, hr]
    exact ⟨by rw [(hbase (some r)).1, hc], by rw [(hbase (some r)).2, hc]⟩

/-- The referrer row used in the registration witness. -/
def w4_referrer : User :=
  { telegram_id := 2, username := some "ref", first_name := none
    last_name := none, credits_remaining := 125, credits_used := 0
    referred_by_id := none, referral_earnings := 0 }

def w4_db : DB := DB.empty.update 2 w4_referrer

/-- C4 witness: registering user 1 with existing referrer 2 concretely
yields balance 225 and `referred_by_id = some 2`. -/
theorem C4_new_user_referral_witness :
    (get_or_create_user w4_db w1_tg (some 2)).1.credits_remaining = 225 ∧
    (get_or_create_user w4_db w1_tg (some 2)).1.referred_by_id = some 2 :=
  (C4_new_user_referral w4_db w1_tg (by decide)).1 2 w4_referrer
    (by decide) (by decide) (by decide)

/-! ### Lemmas about the crediting operations, used for the purchase flow -/

theorem add_credits_apply (db : DB) (i amount : Int) (u : User)
    (h : get_user db i = some u) (hpos : 0 < amount) :
    (add_credits db i amount).2 =
      db.update i { u with credits_remaining := u.credits_remaining + amount } := by
  simp [add_credits, h, hpos]

theorem add_credits_nop (db : DB) (i amount : Int) (hnp : ¬ 0 < amount) :
    (add_credits db i amount).2 = db := by
  cases hdb : get_user db i <;> simp [add_credits, hdb, hnp]

theorem add_referral_earnings_apply (db : DB) (i amount : Int) (u : User)
    (h : get_user db i = some u) (hpos : 0 < amount) :
    (add_referral_earnings db i amount).2 =
      db.update i { u with referral_earnings := u.referral_earnings + amount } := by
  simp [add_referral_earnings, h, hpos]

/-- C3 (amended): for a purchase of non-negative amount by a user whose
`referred_by_id` names an existing, distinct referrer with a genuine
(non-zero) id: the purchaser's balance grows by the amount; when
`bonus = int(amount * 0.20)` is positive the referrer's balance and
`referral_earnings` both grow by the bonus; and when the bonus is zero the
handler performs no referrer-side mutation at all (the store is exactly the
one produced by crediting the purchaser). -/
theorem C3_referral_purchase (db : DB) (pid rid amount : Int) (up ur : User)
    (hA : 0 ≤ amount) (hp : get_user db pid = some up)
    (href : up.referred_by_id = some rid) (hr0 : rid ≠ 0) (hrp : rid ≠ pid)
    (hr : get_user db rid = some ur) (hrid : ur.telegram_id = rid) :
    balanceOf (success_payment_credits db pid amount) pid =
      balanceOf db pid + amount ∧
    (0 < referral_bonus amount →
      balanceOf (success_payment_credits db pid amount) rid =
        balanceOf db rid + referral_bonus amount ∧
      earningsOf (success_payment_credits db pid amount) rid =
        earningsOf db rid + referral_bonus amount) ∧
    (referral_bonus amount = 0 →
      success_payment_credits db pid amount = (add_credits db pid amount).2 ∧
      balanceOf (success_payment_credits db pid amount) rid =
        balanceOf db rid ∧
      earningsOf (success_payment_credits db pid amount) rid =
        earningsOf db rid) := by
  have hdb1r : get_user (add_credits db pid amount).2 rid = some ur := by
    rcases lt_or_le 0 amount with hlt | hle
    · rw [add_credits_apply db pid amount up hp hlt]
      simp only [get_user, DB.update, if_neg hrp]
      exact hr
    · rw [add_credits_nop db pid amount (not_lt.mpr hle)]
      exact hr
  have hbal1p : balanceOf (add_credits db pid amount).2 pid =
      balanceOf db pid + amount := by
    rcases lt_or_le 0 amount with hlt | hle
    · rw [add_credits_apply db pid amount up hp hlt, balanceOf_update,
        if_pos rfl, balanceOf_eq_of_get db pid up hp]
    · have h0 : amount = 0 := le_antisymm hle hA
      rw [add_credits_nop db pid amount (not_lt.mpr hle), h0, add_zero]
  have hbal1r : balanceOf (add_credits db pid amount).2 rid =
      balanceOf db rid := by
    rcases lt_or_le 0 amount with hlt | hle
    · rw [add_credits_apply db pid amount up hp hlt, balanceOf_update,
        if_neg hrp]
    · rw [add_credits_nop db pid amount (not_lt.mpr hle)]
  have hearn1r : earningsOf (add_credits db pid amount).2 rid =
      earningsOf db rid := by
    rcases lt_or_le 0 amount with hlt | hle
    · rw [add_credits_apply db pid amount up hp hlt, earningsOf_update,
        if_neg hrp]
    · rw [add_credits_nop db pid amount (not_lt.mpr hle)]
  have key : success_payment_credits db pid amount =
      if 0 < referral_bonus amount then
        (add_referral_earnings
          ((add_credits (add_credits db pid amount).2 ur.telegram_id
            (referral_bonus amount)).2) ur.telegram_id
          (referral_bonus amount)).2
      else (add_credits db pid amount).2 := by
    simp [success_payment_credits, hp, href, hr0, hdb1r]
  rw [key]
  by_cases hb : 0 < referral_bonus amount
  · rw [if_pos hb, hrid]
    have hdb2 : (add_credits (add_credits db pid amount).2 rid
        (referral_bonus amount)).2 =
        ((add_credits db pid amount).2).update rid
          { ur with credits_remaining :=
              ur.credits_remaining + referral_bonus amount } :=
      add_credits_apply _ rid _ ur hdb1r hb
    rw [hdb2]
    have hget2 : get_user (((add_credits db pid amount).2).update rid
        { ur with credits_remaining :=
            ur.credits_remaining + referral_bonus amount }) rid =
        some { ur with credits_remaining :=
            ur.credits_remaining + referral_bonus amount } := by
      simp [get_user, DB.update]
    rw [add_referral_earnings_apply _ rid _ _ hget2 hb]
    refine ⟨?_, fun _ => ⟨?_, ?_⟩, fun h0 => absurd h0 (by omega)⟩
    · rw [balanceOf_update, if_neg (Ne.symm hrp), balanceOf_update,
        if_neg (Ne.symm hrp), hbal1p]
    · rw [balanceOf_update, if_pos rfl, balanceOf_eq_of_get db rid ur hr]
    · rw [earningsOf_update, if_pos rfl, earningsOf_eq_of_get db rid ur hr]
  · rw [if_neg hb]
    exact ⟨hbal1p, fun hbb => absurd hbb hb, fun _ => ⟨rfl, hbal1r, hearn1r⟩⟩

/-- The referred purchaser used in the purchase witnesses. -/
def c3_purchaser : User :=
  { telegram_id := 1, username := none, first_name := none, last_name := none
    credits_remaining := 10, credits_used := 0, referred_by_id := some 2
    referral_earnings := 0 }

def c3_db : DB := (DB.empty.update 2 w4_referrer).update 1 c3_purchaser

/-- C3 counterexample: for negative integer amounts the claim fails —
`add_credits` refuses a non-positive amount, so a "purchase" of `-1` by the
referred user 1 leaves the purchaser's balance at 10 instead of decreasing
it to 9 as the unrestricted claim would require. -/
theorem C3_counterexample :
    ¬ balanceOf (success_payment_credits c3_db 1 (-1)) 1 =
        balanceOf c3_db 1 + (-1) := by
  decide

/-- C3 witness: a purchase of 100 by referred user 1 credits the purchaser
100 and the referrer 2 both 20 credits and 20 earnings; a purchase of 4
(bonus 0) mutates nothing on the referrer's side. -/
theorem C3_referral_purchase_witness :
    (balanceOf (success_payment_credits c3_db 1 100) 1 =
        balanceOf c3_db 1 + 100 ∧
      balanceOf (success_payment_credits c3_db 1 100) 2 =
        balanceOf c3_db 2 + referral_bonus 100 ∧
      earningsOf (success_payment_credits c3_db 1 100) 2 =
        earningsOf c3_db 2 + referral_bonus 100) ∧
    (success_payment_credits c3_db 1 4 = (add_credits c3_db 1 4).2 ∧
      balanceOf (success_payment_credits c3_db 1 4) 2 = balanceOf c3_db 2 ∧
      earningsOf (success_payment_credits c3_db 1 4) 2 =
        earningsOf c3_db 2) := by
  have h100 := C3_referral_purchase c3_db 1 2 100 c3_purchaser w4_referrer
    (by decide) (by decide) (by decide) (by decide) (by decide) (by decide)
    (by decide)
  have h4 := C3_referral_purchase c3_db 1 2 4 c3_purchaser w4_referrer
    (by decide) (by decide) (by decide) (by decide) (by decide) (by decide)
    (by decide)
  exact ⟨⟨h100.1, (h100.2.1 (by decide)).1, (h100.2.1 (by decide)).2⟩,
    h4.2.2 (by decide)⟩

/-- C2: whenever the acting user's balance covers the cost, the gate debits
the cost and invokes the external collaborator; the resulting store shows
the debited balance for *every* collaborator outcome (so the debit happened
before the call and is never reversed), and a timeout/network failure is
reported as the `unreachable` outcome with no refund. -/
theorem C2_debit_before_external_call (db : DB) (u : User) (cost : Int)
    (ext : ExternalResult) (hu : get_user db u.telegram_id = some u)
    (hcost : cost ≤ u.credits_remaining) :
    (run_paid_gate db u cost ext).external_invoked = true ∧
    balanceOf (run_paid_gate db u cost ext).db u.telegram_id =
      u.credits_remaining - cost ∧
    (ext = ExternalResult.unreachable →
      (run_paid_gate db u cost ext).outcome = GateOutcome.unreachable) := by
  have hnl : ¬ u.credits_remaining < cost := not_lt.mpr hcost
  have huse : (use_credits db u.telegram_id cost).2 =
      db.update u.telegram_id
        { u with
          credits_remaining := u.credits_remaining - cost
          credits_used := u.credits_used + cost } := by
    simp [use_credits, hu, hcost]
  refine ⟨?_, ?_, fun hext => ?_⟩
  · simp [run_paid_gate, hnl]
  · simp only [run_paid_gate, if_neg hnl]
    rw [huse, balanceOf_update, if_pos rfl]
  · simp [run_paid_gate, hnl, hext]

/-- The user with balance exactly 1 used in the gate-timeout witness. -/
def w2_user : User :=
  { telegram_id := 9, username := none, first_name := none, last_name := none
    credits_remaining := 1, credits_used := 0, referred_by_id := none
    referral_earnings := 0 }

def w2_db : DB := DB.empty.update 9 w2_user

/-- C2 witness: card generation (cost 1) with balance exactly 1 and a timed
out collaborator: the service was invoked, the balance is debited to 0
(1 − 1), the outcome is `unreachable`, and no refund happens. -/
theorem C2_debit_before_external_call_witness :
    (run_paid_gate w2_db w2_user CARD_GENERATION_COST
        ExternalResult.unreachable).external_invoked = true ∧
    balanceOf (run_paid_gate w2_db w2_user CARD_GENERATION_COST
        ExternalResult.unreachable).db w2_user.telegram_id =
      w2_user.credits_remaining - CARD_GENERATION_COST ∧
    (ExternalResult.unreachable = ExternalResult.unreachable →
      (run_paid_gate w2_db w2_user CARD_GENERATION_COST
          ExternalResult.unreachable).outcome = GateOutcome.unreachable) :=
  C2_debit_before_external_call w2_db w2_user CARD_GENERATION_COST
    ExternalResult.unreachable (by decide) (by decide)

/-- C6: when the acting user's balance is below the cost, the gate reports
the insufficient-funds outcome carrying `needed = cost` and
`have = balance`, leaves the store untouched, and never invokes the
external collaborator. -/
theorem C6_insufficient_funds_gate (db : DB) (u : User) (cost : Int)
    (ext : ExternalResult) (h : u.credits_remaining < cost) :
    (run_paid_gate db u cost ext).outcome =
      GateOutcome.insufficient cost u.credits_remaining ∧
    (run_paid_gate db u cost ext).db = db ∧
    (run_paid_gate db u cost ext).external_invoked = false := by
  simp [run_paid_gate, h]

/-- The user with balance 39 used in the insufficient-funds witness. -/
def w6_user : User :=
  { telegram_id := 3, username := none, first_name := none, last_name := none
    credits_remaining := 39, credits_used := 0, referred_by_id := none
    referral_earnings := 0 }

def w6_db : DB := DB.empty.update 3 w6_user

/-- C6 witness: photo processing (cost 40) with balance 39 reports
`insufficient 40 39`, the store is unchanged and the collaborator is never
contacted. -/
theorem C6_insufficient_funds_gate_witness :
    (run_paid_gate w6_db w6_user PHOTO_GENERATION_COST
        ExternalResult.delivered).outcome =
      GateOutcome.insufficient PHOTO_GENERATION_COST
        w6_user.credits_remaining ∧
    (run_paid_gate w6_db w6_user PHOTO_GENERATION_COST
        ExternalResult.delivered).db = w6_db ∧
    (run_paid_gate w6_db w6_user PHOTO_GENERATION_COST
        ExternalResult.delivered).external_invoked = false :=
  C6_insufficient_funds_gate w6_db w6_user PHOTO_GENERATION_COST
    ExternalResult.delivered (by decide)

/-- Photo submission never pushes the stored list above 3 elements, from any
state with at most 3. -/
theorem process_photo_length_le (s : PhotoFlow) (f : String)
    (h : s.photo_file_ids.length ≤ 3) :
    (process_photo s f).1.photo_file_ids.length ≤ 3 := by
  unfold process_photo
  split_ifs with hst h3 heq
  · exact h
  · show (s.photo_file_ids ++ [f]).length ≤ 3
    exact le_of_eq heq
  · show (s.photo_file_ids ++ [f]).length ≤ 3
    rw [List.length_append, List.length_singleton]
    omega
  · exact h

/-- Folding any run of photo submissions preserves the 3-element bound. -/
theorem photo_fold_length_le (fs : List String) (s : PhotoFlow)
    (h : s.photo_file_ids.length ≤ 3) :
    (fs.foldl (fun t g => (process_photo t g).1) s).photo_file_ids.length ≤ 3 := by
  induction fs generalizing s with
  | nil => exact h
  | cons f rest ih => exact ih _ (process_photo_length_le s f h)

/-- C10: the stored photo list never exceeds 3: the bound is preserved by
every submission and holds along every run from the initial state; with 3
photos stored a further photo is rejected and both list and FSM state stay
unchanged; below 3 the photo is appended, and the automatic transition to
the prompt step happens exactly when the 3rd photo is added. -/
theorem C10_photo_collection (s : PhotoFlow) (f : String)
    (hst : s.st = PPState.waiting_for_photo) :
    (s.photo_file_ids.length ≤ 3 →
      (process_photo s f).1.photo_file_ids.length ≤ 3) ∧
    (s.photo_file_ids.length = 3 → process_photo s f = (s, false)) ∧
    (s.photo_file_ids.length < 3 →
      (process_photo s f).1.photo_file_ids = s.photo_file_ids ++ [f] ∧
      ((process_photo s f).1.st = PPState.waiting_for_prompt ↔
        s.photo_file_ids.length = 2)) ∧
    (∀ fs : List String,
      (fs.foldl (fun t g => (process_photo t g).1)
        initialPhotoFlow).photo_file_ids.length ≤ 3) := by
  refine ⟨process_photo_length_le s f, fun h3 => ?_, fun hlt => ?_,
    fun fs => photo_fold_length_le fs initialPhotoFlow (by simp [initialPhotoFlow])⟩
  · unfold process_photo
    rw [if_pos hst, if_pos (le_of_eq h3.symm)]
  · have h3 : ¬ 3 ≤ s.photo_file_ids.length := not_le.mpr hlt
    constructor
    · unfold process_photo
      rw [if_pos hst, if_neg h3]
      by_cases heq : (s.photo_file_ids ++ [f]).length = 3
      · rw [if_pos heq]
      · rw [if_neg heq]
    · by_cases heq : (s.photo_file_ids ++ [f]).length = 3
      · have hs : (process_photo s f).1.st = PPState.waiting_for_prompt := by
          unfold process_photo
          rw [if_pos hst, if_neg h3, if_pos heq]
        have h2 : s.photo_file_ids.length = 2 := by
          rw [List.length_append, List.length_singleton] at heq
          omega
        rw [hs]
        simp [h2]
      · have hs : (process_photo s f).1.st = PPState.waiting_for_photo := by
          unfold process_photo
          rw [if_pos hst, if_neg h3, if_neg heq]
          exact hst
        have h2 : ¬ s.photo_file_ids.length = 2 := by
          rw [List.length_append, List.length_singleton] at heq
          omega
        rw [hs]
        exact ⟨fun hc => PPState.noConfusion hc, fun hc => absurd hc h2⟩

/-- The full photo-collection state used to witness the rejection branch. -/
def w10_s : PhotoFlow :=
  { st := PPState.waiting_for_photo, photo_file_ids := ["a", "b", "c"] }

/-- C10 witness: submitting a 4th photo to a state already holding 3 changes
nothing and stores nothing. -/
theorem C10_photo_collection_witness :
    process_photo w10_s "d" = (w10_s, false) :=
  (C10_photo_collection w10_s "d" rfl).2.1 rfl

end ImageCardBot
